import Mathlib

/-!
# p2pg — verification of the deterministic-core specification

A shallow embedding of the deterministic core of the `p2pg` peer-to-peer
action game (files under `src/app/src`), together with proofs about the
embedded definitions.

Modelling conventions:
* `u64`/`usize` values are modelled as `ℕ`; wrap-around arithmetic is made
  explicit via `% U64` exactly where the Rust code performs machine
  arithmetic that can overflow.
* `f32`/`f64` values are modelled as elements of a linear ordered field
  `α`; the transcendental operations (`PI`, `sin`, `cos`, `sqrt`, glam's
  `angle_between`) are collected in a `FloatEnv` record, since their
  bit-level behaviour is platform defined.  Instantiating `α := ℝ` with
  the genuine real operations gives the idealised semantics; `α := ℚ`
  gives an executable semantics for concrete evaluations.
* Rust functions that can panic are modelled with `Option`: `none` is the
  panic.
-/

namespace P2pg

/-! ## Deterministic RNG (`src/app/src/rand.rs`) -/

/-- Machine modulus of the `u64` arithmetic used by `Rng` (`2 ^ 64`). -/
def U64 : ℕ := 2 ^ 64

/-- Rust `struct Rng` from `rand.rs`: a linear congruential generator with
state `x`, modulus `m`, multiplier `a` and increment `c`, all `u64`. -/
structure Rng where
  x : ℕ
  m : ℕ
  a : ℕ
  c : ℕ
  deriving DecidableEq, Repr

/-- Rust `Rng::default()`: seed 1024, modulus `2_147_483_647`, multiplier
`48_271`, increment 0. -/
def Rng.default : Rng :=
  { x := 1024, m := 2147483647, a := 48271, c := 0 }

/-- Rust `Rng::new(seed)`: the default generator with the state replaced by
`seed` (a `u64`, hence the explicit reduction `% U64`). -/
def Rng.new (seed : ℕ) : Rng :=
  { Rng.default with x := seed % U64 }

/-- Rust `Rng::next_f64`: `self.x = (self.a * self.x + self.c) % self.m` with
`u64` wrapping on the product and the sum, then returns
`self.x as f64 / self.m as f64`.  The `f64` conversion and division are
modelled as exact rational arithmetic.  (Rust's `%` panics for `m = 0`
while `Nat.mod _ 0` is the identity; every claim fixes `m` to the
default modulus, so the difference is never exercised.) -/
def Rng.next_f64 (r : Rng) : Rng × ℚ :=
  (⟨(r.a * r.x % U64 + r.c) % U64 % r.m, r.m, r.a, r.c⟩,
    ((r.a * r.x % U64 + r.c) % U64 % r.m : ℕ) / (r.m : ℚ))

/-- Rust `Rng::next_f32`: `self.next_f64() as f32`; the `f64 → f32` rounding is
modelled as exact (the claims only evaluate it at exactly representable
values). -/
def Rng.next_f32 (r : Rng) : Rng × ℚ :=
  r.next_f64

/-- Rust `Rng::next_usize(min, max)`: scales `next_f64` into `[min, max)` via
`(r * (max - min) as f64) as usize + min`.  The float-to-integer cast
truncates towards zero, which for the non-negative values produced here
is `Int.floor`; `toNat` covers the (unreachable) negative case the same
way a saturating cast would. -/
def Rng.next_usize (r : Rng) (min max : ℕ) : Rng × ℕ :=
  ((r.next_f64).1, (Int.floor ((r.next_f64).2 * ((max - min : ℕ) : ℚ))).toNat + min)

/-- Rust `Vec::swap_remove(n)`: returns the element at index `n` after
replacing it with the last element and popping the vector; `none` models
the out-of-bounds panic. -/
def swapRemove {T : Type} (l : List T) (n : ℕ) : Option (T × List T) :=
  match l[n]?, l.getLast? with
  | some v, some last => some (v, (l.set n last).dropLast)
  | _, _ => none

/-- Rust `Rng::extract_random(c)`: removes and returns the element at index
`next_usize(0, c.len())`; `none` models the panic on an empty vector. -/
def Rng.extract_random {T : Type} (r : Rng) (l : List T) : Option (T × Rng × List T) :=
  match swapRemove l ((r.next_usize 0 l.length).2) with
  | some (v, l2) => some (v, (r.next_usize 0 l.length).1, l2)
  | none => none

/-- State of the generator after `n` calls to `next_f64`. -/
def Rng.iterate (r : Rng) : ℕ → Rng
  | 0 => r
  | n + 1 => ((r.iterate n).next_f64).1

/-- Value returned by the `(n+1)`-st call to `next_f64`. -/
def Rng.outAt (r : Rng) (n : ℕ) : ℚ :=
  ((r.iterate n).next_f64).2

/-! ## Vectors and the float environment

`f32` scalars are modelled by an arbitrary linear ordered field with a
floor function.  The transcendental operations the code uses (`PI`,
`sin_cos`, `sqrt`, glam's `Vec2::angle_between`) are collected in a
`FloatEnv`; all definitions are parametric in it, so theorems hold for
every interpretation of those platform-defined operations, and concrete
evaluations can instantiate them over `ℚ`. -/

/-- glam `Vec2`. -/
structure Vec2 (α : Type) where
  x : α
  y : α
  deriving DecidableEq, Repr

instance {α : Type} [Add α] : Add (Vec2 α) :=
  ⟨fun a b => ⟨a.x + b.x, a.y + b.y⟩⟩

instance {α : Type} [Sub α] : Sub (Vec2 α) :=
  ⟨fun a b => ⟨a.x - b.x, a.y - b.y⟩⟩

instance {α : Type} [Mul α] : Mul (Vec2 α) :=
  ⟨fun a b => ⟨a.x * b.x, a.y * b.y⟩⟩

instance {α : Type} [Zero α] : Zero (Vec2 α) :=
  ⟨⟨0, 0⟩⟩

/-- Scalar multiplication `v * s` on a glam `Vec2`. -/
def Vec2.scale {α : Type} [Mul α] (v : Vec2 α) (s : α) : Vec2 α :=
  ⟨v.x * s, v.y * s⟩

/-- glam `Vec3`. -/
structure Vec3 (α : Type) where
  x : α
  y : α
  z : α
  deriving DecidableEq, Repr

instance {α : Type} [Add α] : Add (Vec3 α) :=
  ⟨fun a b => ⟨a.x + b.x, a.y + b.y, a.z + b.z⟩⟩

/-- Componentwise product of two `Vec3`s. -/
def Vec3.mulc {α : Type} [Mul α] (a b : Vec3 α) : Vec3 α :=
  ⟨a.x * b.x, a.y * b.y, a.z * b.z⟩

/-- Scalar multiplication on a `Vec3`. -/
def Vec3.scale {α : Type} [Mul α] (s : α) (v : Vec3 α) : Vec3 α :=
  ⟨s * v.x, s * v.y, s * v.z⟩

/-- Cross product of two `Vec3`s. -/
def Vec3.cross {α : Type} [Ring α] (a b : Vec3 α) : Vec3 α :=
  ⟨a.y * b.z - a.z * b.y, a.z * b.x - a.x * b.z, a.x * b.y - a.y * b.x⟩

/-- Rust `Vec2::extend(z)`. -/
def Vec2.extend {α : Type} (v : Vec2 α) (z : α) : Vec3 α :=
  ⟨v.x, v.y, z⟩

/-- Rust `Vec3::truncate()`. -/
def Vec3.truncate {α : Type} (v : Vec3 α) : Vec2 α :=
  ⟨v.x, v.y⟩

/-- The platform-defined floating-point operations used by the game.
`pi` is `std::f32::consts::PI`; `sinA`/`cosA` model `f32::sin_cos`;
`sqrtA` models `f32::sqrt`; `angleBetween` models glam's
`Vec2::angle_between` (a trigonometric function whose exact `f32`
behaviour is platform and library-version dependent). -/
structure FloatEnv (α : Type) where
  pi : α
  sinA : α → α
  cosA : α → α
  sqrtA : α → α
  angleBetween : Vec2 α → Vec2 α → α

section Scalars

variable {α : Type} [LinearOrderedField α] [FloorRing α]

/-- Rust `input.rs::to_u8_angle`: `t = angle / (2 * PI); (t.clamp(0, 1) * 255).round() as u8`.
`f32::round` rounds half away from zero, which on the non-negative
clamped range coincides with Mathlib's `round`; the `as u8` cast
saturates, modelled by `toNat` (below) and `min 255` (above). -/
def to_u8_angle (fe : FloatEnv α) (angle : α) : ℕ :=
  (round (min (max (angle / (2 * fe.pi)) 0) 1 * 255)).toNat.min 255

/-- Rust `input.rs::from_u8_angle`: `t = angle / 255; t.clamp(0, 1) * 2 * PI`. -/
def from_u8_angle (fe : FloatEnv α) (n : ℕ) : α :=
  min (max ((n : α) / 255) 0) 1 * 2 * fe.pi

/-- Rust `input.rs::vec_to_angle`: `dir.angle_between(Vec2::NEG_Y) + PI`. -/
def vec_to_angle (fe : FloatEnv α) (dir : Vec2 α) : α :=
  fe.angleBetween dir ⟨0, -1⟩ + fe.pi

/-- Rust `input.rs::angle_to_vec`: `angle.sin_cos().into()` — the vector
`(sin angle, cos angle)`. -/
def angle_to_vec (fe : FloatEnv α) (angle : α) : Vec2 α :=
  ⟨fe.sinA angle, fe.cosA angle⟩

/-- glam `Vec2::normalize_or_zero`: the vector scaled by the reciprocal
of its length when that is finite and positive, zero otherwise. -/
def normalizeOrZero (fe : FloatEnv α) (v : Vec2 α) : Vec2 α :=
  if 0 < fe.sqrtA (v.x * v.x + v.y * v.y) then
    ⟨v.x / fe.sqrtA (v.x * v.x + v.y * v.y), v.y / fe.sqrtA (v.x * v.x + v.y * v.y)⟩
  else ⟨0, 0⟩

end Scalars

/-! ## Canonical input record (`src/app/src/input.rs`) -/

/-- Rust `PlayerInput`: the 3-byte canonical input record — `dir` (quantized
movement angle), `btn` (button bitfield), `angle` (quantized aim angle).
Bytes are modelled as `ℕ` (the codec produces values in `0..=255`). -/
structure PlayerInput where
  dir : ℕ
  btn : ℕ
  angle : ℕ
  deriving DecidableEq, Repr

/-- Button bit `MOVE = 1 << 0`. -/
def MOVE : ℕ := 1

/-- Button bit `FIRE = 1 << 1`. -/
def FIRE : ℕ := 2

/-- Rust `PlayerInput::fire`: `self.btn & FIRE != 0`. -/
def PlayerInput.fire (p : PlayerInput) : Bool :=
  p.btn &&& FIRE != 0

/-- Rust `PlayerInput::moving`: `self.btn & MOVE != 0`. -/
def PlayerInput.moving (p : PlayerInput) : Bool :=
  p.btn &&& MOVE != 0

section InputSystems

variable {α : Type} [LinearOrderedField α] [FloorRing α]

/-- Rust `PlayerInput::direction`: `angle_to_vec(from_u8_angle(self.dir)).normalize_or_zero()`. -/
def PlayerInput.direction (fe : FloatEnv α) (p : PlayerInput) : Vec2 α :=
  normalizeOrZero fe (angle_to_vec fe (from_u8_angle fe p.dir))

/-! ## Touch gesture interpreter (`src/app/src/input/touch.rs`) -/

/-- Rust `TouchFinger`: per-finger gesture state. -/
structure TouchFinger (α : Type) where
  start_pos : Vec2 α
  pos : Vec2 α
  tap : Bool
  deriving DecidableEq, Repr

/-- Rust `TouchFinger::delta`: `pos - start_pos`. -/
def TouchFinger.delta (f : TouchFinger α) : Vec2 α :=
  f.pos - f.start_pos

/-- Rust `TouchMovement`: the aggregate touch state.  The `HashMap<u64,
TouchFinger>` is modelled as an association list keyed by finger id. -/
structure TouchMovement (α : Type) where
  fingers : List (ℕ × TouchFinger α)
  stick_id : Option ℕ
  fire_touch : Option (Vec2 α)
  deriving DecidableEq, Repr

/-- Lookup in the finger map (`HashMap::get`). -/
def findFinger : List (ℕ × TouchFinger α) → ℕ → Option (TouchFinger α)
  | [], _ => none
  | (k, f) :: rest, id => if k = id then some f else findFinger rest id

/-- Rust `TouchMovement::drain(player_pos, default_angle, view_to_world)`:
flushes the buffered touch input.  A pending tap sets the `FIRE` bit,
aims at the tap's world position and is cleared; an active joystick
finger sets the `MOVE` bit with the direction of its drag (screen `y`
inverted); if no bit was set the result is `None`.  The mutation of
`self` is modelled by returning the new `TouchMovement` alongside. -/
def TouchMovement.drain (fe : FloatEnv α) (tm : TouchMovement α) (player_pos : Vec2 α)
    (default_angle : ℕ) (view_to_world : Vec2 α → Vec2 α) :
    Option PlayerInput × TouchMovement α :=
  let fireBtn : ℕ := match tm.fire_touch with
    | some _ => FIRE
    | none => 0
  let angle : ℕ := match tm.fire_touch with
    | some screen_pos =>
        to_u8_angle fe (vec_to_angle fe (view_to_world screen_pos - player_pos))
    | none => default_angle
  let tm2 : TouchMovement α := { tm with fire_touch := none }
  let stick_dir : Option ℕ :=
    ((tm.stick_id.bind (fun sid => findFinger tm.fingers sid)).map
        (fun stick_finger => stick_finger.delta * (⟨1, -1⟩ : Vec2 α))).map
      (fun delta => to_u8_angle fe (vec_to_angle fe delta))
  let dir : ℕ := stick_dir.getD 0
  let btn : ℕ := fireBtn ||| (if stick_dir.isSome then MOVE else 0)
  if btn = 0 then (none, tm2) else (some ⟨dir, btn, angle⟩, tm2)

/-! ## Input capture (`src/app/src/input.rs::input`)

The `input` system runs once per tick for the local player.  Bevy
resources it reads are modelled as explicit arguments; the outcome of
the touch-path `drain` call is passed in as `touch_result` (the
repository's `input.rs` invokes `drain` with the cached angle and the
window size while `touch.rs` defines the three-parameter `drain` above —
the two files are from different commits of the game, so the call is
modelled by its result).  The produced record and the updated cached
`InputAngle` are returned; `none` models the `q_window.single()` panic
when no window exists. -/

/-- The four movement keys read by the input system (`A`, `D`, `W`, `S`). -/
structure KeysPressed where
  a : Bool
  d : Bool
  w : Bool
  s : Bool
  deriving DecidableEq, Repr

/-- The window data read by the input system. -/
structure WindowM (α : Type) where
  focused : Bool
  width : α
  height : α
  cursor_position : Option (Vec2 α)
  deriving DecidableEq, Repr

/-- The aim angle produced by one tick of the desktop path: derived from
the cursor position relative to the window centre (screen `y` inverted)
when a cursor position is available, otherwise the cached angle. -/
def aimAngle (fe : FloatEnv α) (w : WindowM α) (cached : ℕ) : ℕ :=
  match w.cursor_position with
  | some cpos =>
      to_u8_angle fe (vec_to_angle fe
        ⟨cpos.x - w.width / 2, -(cpos.y - w.height / 2)⟩)
  | none => cached

/-- The per-key movement accumulator: `dir : IVec2` summed from the four
directional keys, zero when the window is unfocused. -/
def keyDir (w : WindowM α) (keys : KeysPressed) : ℤ × ℤ :=
  if w.focused then
    ((if keys.a then -1 else 0) + (if keys.d then 1 else 0),
     (if keys.w then 1 else 0) + (if keys.s then -1 else 0))
  else (0, 0)

/-- One iteration of the `input` system body for the local handle.
Returns the recorded `PlayerInput` together with the updated cached
`InputAngle`; `none` is the panic of `q_window.single()` when no window
is present.  When no player entity matches the handle the default
(all-zero) record is recorded and the cache is untouched. -/
def inputSystem (fe : FloatEnv α) (window : Option (WindowM α)) (keys : KeysPressed)
    (mouse_left : Bool) (pointer_over_ui : Bool) (touch_result : Option PlayerInput)
    (player_found : Bool) (input_angle : ℕ) : Option (PlayerInput × ℕ) :=
  match window with
  | none => none
  | some w =>
    if player_found then
      match touch_result with
      | some touch_input => some (touch_input, touch_input.angle)
      | none =>
        let dir := keyDir w keys
        let btn : ℕ :=
          (if w.focused && mouse_left && !pointer_over_ui then FIRE else 0) |||
            (if dir.1 * dir.1 + dir.2 * dir.2 ≠ 0 then MOVE else 0)
        let angle := aimAngle fe w input_angle
        some (⟨to_u8_angle fe (vec_to_angle fe ⟨(dir.1 : α), (dir.2 : α)⟩), btn, angle⟩,
          angle)
    else some (⟨0, 0, 0⟩, input_angle)

end InputSystems

/-! ## Transforms and collision (`src/app/src/collision.rs`)

Bevy `Transform`s are embedded with full translation/rotation/scale;
quaternion rotation of a point is the standard
`v + w * t + qv × t` with `t = 2 (qv × v)`.  The SAT helpers of the
external `sepax2d` crate (whose source is not part of this repository)
are modelled by the minimal-translation-vector semantics its
documentation specifies: `sat_collision(left, right)` is the vector to
add to `right`'s position to resolve the overlap with `left`, along the
axis of least projection overlap. -/

/-- glam `Quat`. -/
structure Quat (α : Type) where
  x : α
  y : α
  z : α
  w : α
  deriving DecidableEq, Repr

section Geometry

variable {α : Type} [LinearOrderedField α] [FloorRing α]

/-- glam `Quat::from_rotation_z(angle)`: `(0, 0, sin (angle/2), cos (angle/2))`. -/
def Quat.fromRotationZ (fe : FloatEnv α) (angle : α) : Quat α :=
  ⟨0, 0, fe.sinA (angle / 2), fe.cosA (angle / 2)⟩

/-- Rust `Vec3` addition (plain function form). -/
def Vec3.add (a b : Vec3 α) : Vec3 α :=
  ⟨a.x + b.x, a.y + b.y, a.z + b.z⟩

/-- Quaternion rotation of a point. -/
def Quat.rotate (q : Quat α) (v : Vec3 α) : Vec3 α :=
  Vec3.add v (Vec3.add (Vec3.scale q.w (Vec3.scale 2 (Vec3.cross ⟨q.x, q.y, q.z⟩ v)))
    (Vec3.cross ⟨q.x, q.y, q.z⟩ (Vec3.scale 2 (Vec3.cross ⟨q.x, q.y, q.z⟩ v))))

end Geometry

/-- Bevy `Transform`: translation, rotation, scale. -/
structure TransformB (α : Type) where
  translation : Vec3 α
  rotation : Quat α
  scale : Vec3 α
  deriving DecidableEq, Repr

section Collision

variable {α : Type} [LinearOrderedField α] [FloorRing α]

/-- Bevy `Transform::transform_point`: scale, rotate, then translate. -/
def TransformB.transform_point (t : TransformB α) (p : Vec3 α) : Vec3 α :=
  Vec3.add (t.rotation.rotate (Vec3.mulc t.scale p)) t.translation

/-- Rust `Transform::from_xyz`: identity rotation and unit scale. -/
def TransformB.fromXYZ (x y z : α) : TransformB α :=
  ⟨⟨x, y, z⟩, ⟨0, 0, 0, 1⟩, ⟨1, 1, 1⟩⟩

end Collision

/-- Rust `collision.rs::Hitbox`. -/
inductive Hitbox (α : Type) where
  | rect (offset : Vec2 α) (half_size : Vec2 α)
  | circle (offset : Vec2 α) (radius : α)
  deriving DecidableEq, Repr

/-- The sepax2d shapes produced by `Hitbox::into_sepax`: an axis-aligned
box given by its bottom-left corner, width and height, or a circle. -/
inductive Shape (α : Type) where
  | aabb (position : Vec2 α) (width height : α)
  | circle (position : Vec2 α) (radius : α)
  deriving DecidableEq, Repr

section Collision2

variable {α : Type} [LinearOrderedField α] [FloorRing α]

/-- Rust `Hitbox::with_transform`: transforms the offset as a point and
scales the extent (rects scale per axis, circles by the largest scale
component). -/
def Hitbox.with_transform (hb : Hitbox α) (t : TransformB α) : Hitbox α :=
  match hb with
  | .rect offset half_size =>
      .rect (t.transform_point (offset.extend 0)).truncate
        ⟨t.scale.x * half_size.x, t.scale.y * half_size.y⟩
  | .circle offset radius =>
      .circle (t.transform_point (offset.extend 0)).truncate
        (radius * max t.scale.x (max t.scale.y t.scale.z))

/-- Rust `Hitbox::into_sepax`: a rect becomes an `AABB` positioned at its
top-left corner `offset - half_size` with doubled extents; a circle maps
directly. -/
def Hitbox.into_sepax : Hitbox α → Shape α
  | .rect offset half_size =>
      .aabb ⟨offset.x - half_size.x, offset.y - half_size.y⟩
        (half_size.x * 2) (half_size.y * 2)
  | .circle offset radius => .circle offset radius

/-- Model of `sepax2d::sat_overlap` for the shape pairs the game uses:
interval overlap on both axes for two boxes, and the
closest-point-distance criterion for the circle cases (touching counts
as overlapping, matching SAT's non-strict separation test). -/
def satOverlap : Shape α → Shape α → Bool
  | .aabb p w h, .aabb q u v =>
      decide (max p.x q.x ≤ min (p.x + w) (q.x + u)) &&
      decide (max p.y q.y ≤ min (p.y + h) (q.y + v))
  | .circle c1 r1, .circle c2 r2 =>
      decide ((c2.x - c1.x) * (c2.x - c1.x) + (c2.y - c1.y) * (c2.y - c1.y)
        ≤ (r1 + r2) * (r1 + r2))
  | .aabb p w h, .circle c r =>
      decide ((c.x - min (max c.x p.x) (p.x + w)) * (c.x - min (max c.x p.x) (p.x + w))
        + (c.y - min (max c.y p.y) (p.y + h)) * (c.y - min (max c.y p.y) (p.y + h))
        ≤ r * r)
  | .circle c r, .aabb p w h =>
      decide ((c.x - min (max c.x p.x) (p.x + w)) * (c.x - min (max c.x p.x) (p.x + w))
        + (c.y - min (max c.y p.y) (p.y + h)) * (c.y - min (max c.y p.y) (p.y + h))
        ≤ r * r)

/-- Minimal translation vector pushing the box `(q, u, v)` out of the box
`(p, w, h)` along the axis of least overlap, away from `(p, w, h)`'s
center; zero when they do not overlap. -/
def aabbCollision (p : Vec2 α) (w h : α) (q : Vec2 α) (u v : α) : Vec2 α :=
  let ox := min (p.x + w) (q.x + u) - max p.x q.x
  let oy := min (p.y + h) (q.y + v) - max p.y q.y
  if 0 ≤ ox ∧ 0 ≤ oy then
    if ox ≤ oy then
      ⟨if q.x + u / 2 < p.x + w / 2 then -ox else ox, 0⟩
    else
      ⟨0, if q.y + v / 2 < p.y + h / 2 then -oy else oy⟩
  else ⟨0, 0⟩

/-- Model of `sepax2d::sat_collision(left, right)`: the vector to add to
`right` to resolve its overlap with `left`; zero when the shapes do not
overlap.  The circle cases push along the line through the closest
points using the environment's square root (no claim evaluates them). -/
def satCollision (fe : FloatEnv α) : Shape α → Shape α → Vec2 α
  | .aabb p w h, .aabb q u v => aabbCollision p w h q u v
  | .circle c1 r1, .circle c2 r2 =>
      let dx := c2.x - c1.x
      let dy := c2.y - c1.y
      let dist := fe.sqrtA (dx * dx + dy * dy)
      if (r1 + r2) * (r1 + r2) < dx * dx + dy * dy then ⟨0, 0⟩
      else if 0 < dist then ⟨dx / dist * (r1 + r2 - dist), dy / dist * (r1 + r2 - dist)⟩
      else ⟨r1 + r2, 0⟩
  | .aabb p w h, .circle c r =>
      let dx := c.x - min (max c.x p.x) (p.x + w)
      let dy := c.y - min (max c.y p.y) (p.y + h)
      let dist := fe.sqrtA (dx * dx + dy * dy)
      if r * r < dx * dx + dy * dy then ⟨0, 0⟩
      else if 0 < dist then ⟨dx / dist * (r - dist), dy / dist * (r - dist)⟩
      else aabbCollision p w h ⟨c.x - r, c.y - r⟩ (r * 2) (r * 2)
  | .circle c r, .aabb q u v =>
      let dx := min (max c.x q.x) (q.x + u) - c.x
      let dy := min (max c.y q.y) (q.y + v) - c.y
      let dist := fe.sqrtA (dx * dx + dy * dy)
      if r * r < dx * dx + dy * dy then ⟨0, 0⟩
      else if 0 < dist then ⟨dx / dist * (r - dist), dy / dist * (r - dist)⟩
      else aabbCollision ⟨c.x - r, c.y - r⟩ (r * 2) (r * 2) q u v

/-- Rust `collision.rs::hitbox_collision(dynamic, rigid)`: the translation
required to shift the dynamic body out of the rigid body,
`sat_collision(shape_rigid, shape_dynamic)` on the transformed shapes. -/
def hitbox_collision (fe : FloatEnv α) (dynamic rigid : Hitbox α × TransformB α) : Vec2 α :=
  satCollision fe ((rigid.1.with_transform rigid.2).into_sepax)
    ((dynamic.1.with_transform dynamic.2).into_sepax)

/-- Rust `collision.rs::hitbox_intersects(a, b)`. -/
def hitbox_intersects (a b : Hitbox α × TransformB α) : Bool :=
  satOverlap ((a.1.with_transform a.2).into_sepax) ((b.1.with_transform b.2).into_sepax)

end Collision2

/-! ## Combat-schedule systems (`src/app/src/main.rs`)

The `GgrsSchedule` combat chain over the rollback-tracked components.
Entities are lists of per-archetype records; the ambient, non-tracked
resources the systems receive (asset server handles, audio) are an
opaque parameter `env` that the tracked-state updates never consult. -/

/-- Rust `component.rs::WallContactState`. -/
structure WallContactState where
  up : Bool
  down : Bool
  left : Bool
  right : Bool
  deriving DecidableEq, Repr

/-- Rust `collision.rs::WallSensors`: one probe hitbox per side. -/
structure WallSensors (α : Type) where
  up : Hitbox α
  down : Hitbox α
  left : Hitbox α
  right : Hitbox α
  deriving DecidableEq, Repr

/-- Rust `component.rs::CanShoot`. -/
structure CanShoot where
  value : Bool
  since_last : ℕ
  deriving DecidableEq, Repr

/-- Rust `component.rs::Facing`. -/
inductive Facing where
  | up
  | right
  | down
  | left
  deriving DecidableEq, Repr

/-- A player entity with its rollback-tracked components (plus `Facing`,
which the chain also writes). -/
structure PlayerEnt (α : Type) where
  id : ℕ
  transform : TransformB α
  velocity : Vec2 α
  walls : WallContactState
  sensors : WallSensors α
  hitbox : Hitbox α
  canShoot : CanShoot
  facing : Facing
  health : ℤ
  points : ℕ
  input_angle : ℕ
  last_damaged_by : Option ℕ
  deriving DecidableEq, Repr

/-- A bullet entity (`main.rs`'s `Bullet` carries its direction and
speed; `Lifetime` is the remaining tick count). -/
structure BulletEnt (α : Type) where
  dir : Vec2 α
  vel : α
  transform : TransformB α
  lifetime : ℕ
  hitbox : Hitbox α
  deriving DecidableEq, Repr

/-- A bow entity, parented to the player entity with the stored id. -/
structure BowEnt (α : Type) where
  parent : ℕ
  transform : TransformB α
  deriving DecidableEq, Repr

/-- The rollback-tracked world state the combat chain reads and writes:
players, bullets, bows, the static rigid bodies, and the RNG resource. -/
structure CombatState (α : Type) where
  players : List (PlayerEnt α)
  bullets : List (BulletEnt α)
  bows : List (BowEnt α)
  rigids : List (Hitbox α × TransformB α)
  rng : Rng
  deriving DecidableEq, Repr

section Combat

variable {α : Type} [LinearOrderedField α] [FloorRing α]

/-- Rust `main.rs::sense_walls`: for each player, scan every rigid body with
the four wall-sensor hitboxes (with the source's short-circuiting
conditionals) and store the contact flags. -/
def sense_walls (s : CombatState α) : CombatState α :=
  { s with players := s.players.map (fun p =>
      let w : WallContactState := s.rigids.foldl
        (fun (acc : WallContactState) r =>
          { up := if acc.up then acc.up
              else hitbox_intersects (p.sensors.up, p.transform) r,
            down := if acc.down then acc.down
              else hitbox_intersects (p.sensors.down, p.transform) r,
            left := if acc.left then acc.left
              else hitbox_intersects (p.sensors.left, p.transform) r,
            right := if acc.right then acc.right
              else hitbox_intersects (p.sensors.right, p.transform) r })
        ⟨false, false, false, false⟩
      { p with walls := w }) }

/-- Rust `main.rs::wall_direction_clamp`: zero out the components of `dir`
that push into a touched wall. -/
def wall_direction_clamp (dir : Vec2 α) (walls : WallContactState) : Vec2 α :=
  ⟨if (walls.right && decide (0 < dir.x)) || (walls.left && decide (dir.x < 0))
      then 0 else dir.x,
   if (walls.up && decide (0 < dir.y)) || (walls.down && decide (dir.y < 0))
      then 0 else dir.y⟩

/-- Rust `main.rs::move_player`: velocity is the clamped, normalized input
direction (scaled by 1.4 and re-normalized, as written), added to the
translation. -/
def move_player (fe : FloatEnv α) (inputs : ℕ → PlayerInput) (s : CombatState α) :
    CombatState α :=
  { s with players := s.players.map (fun p =>
      let input := inputs p.id
      let dir := normalizeOrZero fe (wall_direction_clamp (input.direction fe) p.walls)
      let delta := normalizeOrZero fe (dir.scale (14 / 10))
      { p with velocity := delta,
               transform := { p.transform with
                 translation := Vec3.add p.transform.translation (delta.extend 0) } }) }

/-- Rust `main.rs::player_terrain_collision`: for each player, iterate the
rigid bodies in order and add each SAT resolution to the (already
shifted) translation — the corrections are applied sequentially against
the mutated transform, exactly as the `for` loop mutates `p_transform`
in place. -/
def player_terrain_collision (fe : FloatEnv α) (s : CombatState α) : CombatState α :=
  { s with players := s.players.map (fun p =>
      let t := s.rigids.foldl
        (fun t r =>
          let resolution := hitbox_collision fe (p.hitbox, t) r
          { t with translation :=
              ⟨t.translation.x + resolution.x, t.translation.y + resolution.y,
                t.translation.z⟩ })
        p.transform
      { p with transform := t }) }

/-- Rust `main.rs::track_player_facing`: quantize the aim byte into one of
four facings. -/
def track_player_facing (inputs : ℕ → PlayerInput) (s : CombatState α) : CombatState α :=
  { s with players := s.players.map (fun p =>
      let input := inputs p.id
      { p with facing :=
          if input.angle < 32 then Facing.up
          else if input.angle < 96 then Facing.right
          else if input.angle < 160 then Facing.down
          else if input.angle < 224 then Facing.left
          else Facing.up }) }

/-- Rust `main.rs::point_bow`: rotate each bow (whose parent player exists) to
`2π - from_u8_angle(angle) + π/4`. -/
def point_bow (fe : FloatEnv α) (inputs : ℕ → PlayerInput) (s : CombatState α) :
    CombatState α :=
  { s with bows := s.bows.map (fun bow =>
      match s.players.find? (fun p => p.id == bow.parent) with
      | none => bow
      | some player =>
        let input := inputs player.id
        { bow with transform := { bow.transform with
            rotation := Quat.fromRotationZ fe
              (2 * fe.pi - from_u8_angle fe input.angle + fe.pi / 4) } }) }

/-- Rust `main.rs::shoot`: a firing player whose bow is ready (value set and
cooldown of 25 ticks elapsed) resets its `CanShoot` and spawns an arrow
16 units ahead, with speed 2.2, lifetime 150, the bullet hitbox of
`BulletBundle::new`, and rotation `2π - angle + π/4`.  The ambient
resources (`asset_server`, audio) are the opaque `env`. -/
def shoot {ε : Type} (fe : FloatEnv α) (env : ε) (inputs : ℕ → PlayerInput)
    (s : CombatState α) : CombatState α :=
  { s with
    players := s.players.map (fun p =>
      let input := inputs p.id
      if input.fire && p.canShoot.value && decide (25 ≤ p.canShoot.since_last) then
        { p with canShoot := ⟨false, 0⟩ }
      else p),
    bullets := s.bullets ++ s.players.filterMap (fun p =>
      let input := inputs p.id
      if input.fire && p.canShoot.value && decide (25 ≤ p.canShoot.since_last) then
        some { dir := angle_to_vec fe (from_u8_angle fe input.angle),
               vel := 11 / 5,
               transform :=
                 { translation :=
                     ⟨p.transform.translation.x
                        + (angle_to_vec fe (from_u8_angle fe input.angle)).x * 16,
                      p.transform.translation.y
                        + (angle_to_vec fe (from_u8_angle fe input.angle)).y * 16,
                      15⟩,
                   rotation := Quat.fromRotationZ fe
                     (2 * fe.pi - from_u8_angle fe input.angle + fe.pi / 4),
                   scale := ⟨1, 1, 1⟩ },
               lifetime := 150,
               hitbox := Hitbox.circle ⟨3, 3⟩ (5 / 2) }
      else none) }

/-- Rust `main.rs::bullet_player_collision`: despawn every bullet that
intersects a player (the audio side effect lives in `env` and is not
tracked). -/
def bullet_player_collision {ε : Type} (env : ε) (s : CombatState α) : CombatState α :=
  { s with bullets := s.bullets.filter (fun b =>
      ! s.players.any (fun p =>
          hitbox_intersects (p.hitbox, p.transform) (b.hitbox, b.transform))) }

/-- Rust `main.rs::reload`: advance the cooldown counter; when the fire button
is released the bow becomes ready again. -/
def reload (inputs : ℕ → PlayerInput) (s : CombatState α) : CombatState α :=
  { s with players := s.players.map (fun p =>
      let input := inputs p.id
      { p with canShoot :=
          ⟨if input.fire then p.canShoot.value else true,
            p.canShoot.since_last + 1⟩ }) }

/-- Rust `main.rs::move_bullets`: translate each bullet by `dir * vel`. -/
def move_bullets (s : CombatState α) : CombatState α :=
  { s with bullets := s.bullets.map (fun b =>
      { b with transform := { b.transform with translation :=
          ⟨b.transform.translation.x + b.dir.x * b.vel,
           b.transform.translation.y + b.dir.y * b.vel,
           b.transform.translation.z⟩ } }) }

/-- Rust `main.rs::despawn_after_lifetime`: decrement each `Lifetime`
(wrapping `usize` arithmetic) and despawn entities that reach 0. -/
def despawn_after_lifetime (s : CombatState α) : CombatState α :=
  { s with bullets :=
      (List.filter (fun b => b.lifetime != 0)
        (List.map (fun b => { b with lifetime := (b.lifetime + (U64 - 1)) % U64 })
          s.bullets)) }

/-- One tick of the combat `GgrsSchedule` chain, in the declared
`.chain()` order. -/
def stepFrame {ε : Type} (fe : FloatEnv α) (env : ε) (inputs : ℕ → PlayerInput)
    (s : CombatState α) : CombatState α :=
  despawn_after_lifetime (move_bullets (reload inputs (bullet_player_collision env
    (shoot fe env inputs (point_bow fe inputs (track_player_facing inputs
      (player_terrain_collision fe (move_player fe inputs (sense_walls s)))))))))

/-- Rust `N` frames of the combat chain, driven by an ordered per-frame list
of per-slot input assignments. -/
def runCombat {ε : Type} (fe : FloatEnv α) (env : ε) :
    List (ℕ → PlayerInput) → CombatState α → CombatState α
  | [], s => s
  | inputs :: rest, s => runCombat fe env rest (stepFrame fe env inputs s)

end Combat

/-! ## Session orchestration (`src/app/src/p2p.rs`, `src/app/src/main.rs`)

`process_ggrs_events` runs every `Update` frame; it drains the session's
event queue and requests the `Lobby` state on a `Disconnected` event
(all other events, including `DesyncDetected`, only get logged).
Entering `Lobby` runs `reset_game`, which despawns players and bullets,
reseeds the RNG and removes the socket and session resources. -/

/-- The `ggrs::GGRSEvent` variants (payloads reduced to the data the
model distinguishes). -/
inductive GgrsEvent where
  | synchronizing (addr total count : ℕ)
  | synchronized (addr : ℕ)
  | disconnected (addr : ℕ)
  | networkInterrupted (addr timeout : ℕ)
  | networkResumed (addr : ℕ)
  | waitRecommendation (skip_frames : ℕ)
  | desyncDetected (frame local_checksum remote_checksum addr : ℕ)
  deriving DecidableEq, Repr

/-- Whether an event matches the `GgrsEvent::Disconnected { .. }` arm of
`process_ggrs_events`. -/
def GgrsEvent.isDisconnected : GgrsEvent → Bool
  | .disconnected _ => true
  | _ => false

/-- The P2P session resource; the model keeps only its pending event
queue (what `session.events()` drains). -/
structure SessionRes where
  events : List GgrsEvent
  deriving DecidableEq, Repr

/-- The game-level states of `GameState` in `main.rs`. -/
inductive GameStateM where
  | loading
  | lobby
  | connecting
  | countdown
  | combat
  deriving DecidableEq, Repr

/-- The application resources touched by disconnect handling: the state
machine, the session and socket resources, the player and bullet
entities (ids), and the RNG resource. -/
structure AppState where
  game_state : GameStateM
  session : Option SessionRes
  socket : Bool
  players : List ℕ
  bullets : List ℕ
  rng : Rng
  deriving DecidableEq, Repr

/-- Rust `p2p.rs::process_ggrs_events`: drains the session's events; on any
`Disconnected` event requests `GameState::Lobby`; returns the requested
next state (if any).  With no session resource nothing happens. -/
def process_ggrs_events (session : Option SessionRes) : Option GameStateM :=
  match session with
  | none => none
  | some s => if s.events.any GgrsEvent.isDisconnected then some .lobby else none

/-- Rust `main.rs::reset_game` (runs `OnEnter(GameState::Lobby)`): despawns
all players and bullets, reseeds the RNG with `8008135`, and removes the
socket and session resources. -/
def reset_game (st : AppState) : AppState :=
  { st with players := [], bullets := [], rng := Rng.new 8008135,
            socket := false, session := none }

/-- One `Update`-frame of session-event handling: `process_ggrs_events`
runs (draining the event queue), and if it requested `Lobby` the state
transition is applied, triggering `reset_game` on entry. -/
def handle_session_events (st : AppState) : AppState :=
  match process_ggrs_events st.session with
  | some .lobby => reset_game { st with game_state := .lobby }
  | some gs => { st with game_state := gs }
  | none =>
    match st.session with
    | none => st
    | some _ => { st with session := some ⟨[]⟩ }

/-- A concrete executable interpretation of the float environment over
`ℚ`, used to evaluate the model at specific inputs.  The values of the
transcendental fields are irrelevant to the properties evaluated with
it. -/
def qEnv : FloatEnv ℚ where
  pi := 0
  sinA := fun _ => 0
  cosA := fun _ => 0
  sqrtA := fun _ => 0
  angleBetween := fun _ _ => 0

/-- The idealised real-number interpretation of the float operations:
genuine `π`, `sin`, `cos`, `√`; `angle_between` follows glam's
implementation shape (arc-cosine of the normalised dot product, with the
sign of the perpendicular dot product). -/
noncomputable def realFloatEnv : FloatEnv ℝ where
  pi := Real.pi
  sinA := Real.sin
  cosA := Real.cos
  sqrtA := Real.sqrt
  angleBetween := fun a b =>
    (if a.x * b.y - a.y * b.x < 0 then -1 else 1) *
      Real.arccos ((a.x * b.x + a.y * b.y) /
        Real.sqrt ((a.x * a.x + a.y * a.y) * (b.x * b.x + b.y * b.y)))

/-! ## Theorems -/

/-! ### RNG lemmas -/

theorem Rng.next_f64_nonneg (r : Rng) : 0 ≤ (r.next_f64).2 := by
  unfold Rng.next_f64
  positivity

theorem Rng.next_f64_lt_one (r : Rng) (hm : 0 < r.m) : (r.next_f64).2 < 1 := by
  unfold Rng.next_f64
  rw [div_lt_one (by exact_mod_cast hm)]
  exact_mod_cast Nat.mod_lt _ hm

theorem Rng.next_usize_lt (r : Rng) (k : ℕ) (hm : 0 < r.m) (hk : 0 < k) :
    (r.next_usize 0 k).2 < k := by
  unfold Rng.next_usize
  have h0 : 0 ≤ (r.next_f64).2 := r.next_f64_nonneg
  have h1 : (r.next_f64).2 < 1 := r.next_f64_lt_one hm
  have hlt : (r.next_f64).2 * ((k - 0 : ℕ) : ℚ) < (k : ℚ) := by
    simp only [Nat.sub_zero]
    calc (r.next_f64).2 * (k : ℚ) < 1 * (k : ℚ) := by
          apply mul_lt_mul_of_pos_right h1
          exact_mod_cast hk
      _ = (k : ℚ) := one_mul _
  have hfl : Int.floor ((r.next_f64).2 * ((k - 0 : ℕ) : ℚ)) < (k : ℤ) :=
    Int.floor_lt.mpr (by exact_mod_cast hlt)
  have := (Int.toNat_lt' (by omega : k ≠ 0)).mpr hfl
  omega

theorem List.get_cons_set_perm {T : Type} :
    ∀ (xs : List T) (n : ℕ) (h : n < xs.length) (v : T),
      (xs.get ⟨n, h⟩ :: xs.set n v).Perm (v :: xs)
  | x :: xs, 0, _, v => by
    show (x :: v :: xs).Perm (v :: x :: xs)
    exact List.Perm.swap v x xs
  | x :: xs, n + 1, h, v => by
    have h2 : n < xs.length := by simpa using h
    have ih := List.get_cons_set_perm xs n h2 v
    show (xs.get ⟨n, h2⟩ :: x :: xs.set n v).Perm (v :: x :: xs)
    exact (List.Perm.swap x _ _).trans ((ih.cons x).trans (List.Perm.swap v x xs))

theorem List.set_get_self {T : Type} :
    ∀ (xs : List T) (n : ℕ) (h : n < xs.length), xs.set n (xs.get ⟨n, h⟩) = xs
  | _ :: _, 0, _ => rfl
  | x :: xs, n + 1, h => by
    simpa using List.set_get_self xs n (by simpa using h)

theorem List.dropLast_set_of_lt {T : Type} :
    ∀ (xs : List T) (n : ℕ) (a : T), n + 1 < xs.length →
      (xs.set n a).dropLast = xs.dropLast.set n a
  | [], _, _, h => by simp at h
  | [_], 0, _, h => by simp at h
  | x :: y :: xs, 0, a, _ => by simp
  | x :: y :: xs, n + 1, a, h => by
    have ih := List.dropLast_set_of_lt (y :: xs) n a (by simpa using h)
    obtain ⟨z, zs, hzs⟩ : ∃ z zs, (y :: xs).set n a = z :: zs := by
      cases n
      · exact ⟨_, _, rfl⟩
      · exact ⟨_, _, rfl⟩
    show (x :: (y :: xs).set n a).dropLast = (x :: (y :: xs).dropLast).set (n + 1) a
    rw [hzs, List.dropLast_cons₂, ← hzs, ih]
    rfl

theorem List.get_dropLast' {T : Type} (xs : List T) (n : ℕ)
    (h1 : n < xs.dropLast.length) (h2 : n < xs.length) :
    xs.dropLast.get ⟨n, h1⟩ = xs.get ⟨n, h2⟩ := by
  have hlen : n < xs.length - 1 := by
    have := List.length_dropLast xs; omega
  have hq : xs.dropLast[n]? = xs[n]? := by
    rw [List.dropLast_eq_take, List.getElem?_take, if_pos hlen]
  have e1 : xs.dropLast[n]? = some (xs.dropLast.get ⟨n, h1⟩) := by
    rw [List.getElem?_eq_getElem h1]; rfl
  have e2 : xs[n]? = some (xs.get ⟨n, h2⟩) := by
    rw [List.getElem?_eq_getElem h2]; rfl
  rw [e1, e2] at hq
  exact Option.some.inj hq

theorem swapRemove_spec {T : Type} (l : List T) (n : ℕ) (v : T) (l2 : List T)
    (h : swapRemove l n = some (v, l2)) :
    l2.length = l.length - 1 ∧ (v :: l2).Perm l := by
  unfold swapRemove at h
  rcases hget : l[n]? with _ | w
  · rw [hget] at h; exact absurd h (by simp)
  rcases hlast : l.getLast? with _ | last
  · rw [hget, hlast] at h; exact absurd h (by simp)
  rw [hget, hlast] at h
  have hn : n < l.length := by
    by_contra hc
    rw [List.getElem?_eq_none (by omega)] at hget
    exact absurd hget (by simp)
  have hne : l ≠ [] := by
    intro hnil; subst hnil; simp at hn
  have hv : v = l.get ⟨n, hn⟩ := by
    have := (List.getElem?_eq_getElem hn).symm.trans hget
    have hw := Option.some.inj this
    have hvw : v = w := by
      have := h
      simp only [Option.some.injEq, Prod.mk.injEq] at this
      exact this.1.symm
    rw [hvw, ← hw, List.get_eq_getElem]
  have hlasteq : last = l.getLast hne := by
    have := (List.getLast?_eq_getLast_of_ne_nil hne).symm.trans hlast
    exact (Option.some.inj this).symm
  have hl2 : l2 = (l.set n last).dropLast := by
    have := h
    simp only [Option.some.injEq, Prod.mk.injEq] at this
    exact this.2.symm
  constructor
  · rw [hl2, List.length_dropLast, List.length_set]
  · -- two cases: `n` is the last index, or a proper interior index
    rcases Nat.lt_or_ge n (l.length - 1) with hlt | hge
    · -- interior: dropLast commutes with set
      have hn1 : n + 1 < l.length := by omega
      have hdl : n < l.dropLast.length := by
        rw [List.length_dropLast]; omega
      rw [hl2, List.dropLast_set_of_lt l n last hn1, hv]
      have hgd : l.get ⟨n, hn⟩ = l.dropLast.get ⟨n, hdl⟩ :=
        (List.get_dropLast' l n hdl hn).symm
      rw [hgd, hlasteq]
      have hperm := List.get_cons_set_perm l.dropLast n hdl (l.getLast hne)
      refine hperm.trans ?_
      have hsingle := (List.perm_append_singleton (l.getLast hne) l.dropLast).symm
      have happ : l.dropLast ++ [l.getLast hne] = l :=
        List.dropLast_append_getLast hne
      refine hsingle.trans ?_
      rw [happ]
    · -- last index: setting position `n` with the last element is a no-op
      have hn' : n = l.length - 1 := by omega
      have hgl : l.get ⟨n, hn⟩ = l.getLast hne := by
        subst hn'
        simp [List.get_eq_getElem, List.getLast_eq_getElem]
      have hset : l.set n last = l := by
        rw [hlasteq, ← hgl, List.set_get_self]
      rw [hl2, hset, hv, hgl]
      have hsingle := (List.perm_append_singleton (l.getLast hne) l.dropLast).symm
      have happ : l.dropLast ++ [l.getLast hne] = l :=
        List.dropLast_append_getLast hne
      refine hsingle.trans ?_
      rw [happ]

/-- C7: for an `Rng` whose parameters are the defaults
(`m = 2147483647`, `a = 48271`, `c = 0`) and whose state satisfies
`x < m` (so that `a * x + c` does not overflow `u64`), `next_f64` updates
the state to `(a * x + c) % m = (48271 * x) % 2147483647` and returns that
new state divided by `m`, a value lying in `[0, 1)`. -/
theorem next_f64_spec (r : Rng) (hm : r.m = 2147483647) (ha : r.a = 48271)
    (hc : r.c = 0) (hx : r.x < r.m) :
    ((r.next_f64).1).x = (48271 * r.x) % 2147483647 ∧
    ((r.next_f64).1).m = r.m ∧ ((r.next_f64).1).a = r.a ∧ ((r.next_f64).1).c = r.c ∧
    (r.next_f64).2 = (((48271 * r.x) % 2147483647 : ℕ) : ℚ) / 2147483647 ∧
    0 ≤ (r.next_f64).2 ∧ (r.next_f64).2 < 1 := by
  have hnov : r.a * r.x % U64 = r.a * r.x := by
    apply Nat.mod_eq_of_lt
    have hxm : r.x < 2147483647 := hm ▸ hx
    have h1 : r.a * r.x < 48271 * 2147483647 := by
      rw [ha]
      exact (Nat.mul_lt_mul_left (by norm_num : 0 < 48271)).mpr hxm
    calc r.a * r.x < 48271 * 2147483647 := h1
      _ < U64 := by norm_num [U64]
  have hnov2 : r.a * r.x % U64 + r.c < U64 := by
    rw [hnov, hc]
    have hxm : r.x < 2147483647 := hm ▸ hx
    have h1 : r.a * r.x < 48271 * 2147483647 := by
      rw [ha]
      exact (Nat.mul_lt_mul_left (by norm_num : 0 < 48271)).mpr hxm
    calc r.a * r.x + 0 = r.a * r.x := by ring
      _ < 48271 * 2147483647 := h1
      _ < U64 := by norm_num [U64]
  refine ⟨?_, rfl, rfl, rfl, ?_, r.next_f64_nonneg, r.next_f64_lt_one (by omega)⟩
  · show (r.a * r.x % U64 + r.c) % U64 % r.m = _
    rw [Nat.mod_eq_of_lt hnov2, hnov, hc, ha, hm, Nat.add_zero]
  · show (((r.a * r.x % U64 + r.c) % U64 % r.m : ℕ) : ℚ) / (r.m : ℚ) = _
    rw [Nat.mod_eq_of_lt hnov2, hnov, hc, ha, hm, Nat.add_zero]
    norm_num

/-- C7 witness: the default generator satisfies the hypotheses, and
`next_f64` behaves as stated on it. -/
theorem next_f64_spec_witness :
    ((Rng.default.next_f64).1).x = (48271 * Rng.default.x) % 2147483647 ∧
    ((Rng.default.next_f64).1).m = Rng.default.m ∧
    ((Rng.default.next_f64).1).a = Rng.default.a ∧
    ((Rng.default.next_f64).1).c = Rng.default.c ∧
    (Rng.default.next_f64).2
      = (((48271 * Rng.default.x) % 2147483647 : ℕ) : ℚ) / 2147483647 ∧
    0 ≤ (Rng.default.next_f64).2 ∧ (Rng.default.next_f64).2 < 1 :=
  next_f64_spec Rng.default rfl rfl rfl (by norm_num [Rng.default])

/-- C8: on a non-empty vector of length `k` and a default-parameter `Rng`
state with `x < m`, `extract_random` succeeds: it picks the index
`next_usize(0, k)`, which lies in `[0, k)`, removes that element by
swap-and-pop, returns it, and leaves a vector of length `k - 1` holding
exactly the remaining elements (as a permutation). -/
theorem extract_random_spec {T : Type} (r : Rng) (l : List T) (hl : l ≠ [])
    (hm : r.m = 2147483647) (hx : r.x < r.m) :
    (r.next_usize 0 l.length).2 < l.length ∧
    ∃ v l2, r.extract_random l = some (v, (r.next_usize 0 l.length).1, l2) ∧
      l2.length = l.length - 1 ∧ (v :: l2).Perm l := by
  have hk : 0 < l.length := List.length_pos.mpr hl
  have hn : (r.next_usize 0 l.length).2 < l.length :=
    r.next_usize_lt l.length (by omega) hk
  refine ⟨hn, ?_⟩
  have hget : l[(r.next_usize 0 l.length).2]?
      = some (l.get ⟨(r.next_usize 0 l.length).2, hn⟩) := by
    rw [List.getElem?_eq_getElem hn]; rfl
  have hlast : l.getLast? = some (l.getLast hl) :=
    List.getLast?_eq_getLast_of_ne_nil hl
  have hsr : swapRemove l ((r.next_usize 0 l.length).2)
      = some (l.get ⟨(r.next_usize 0 l.length).2, hn⟩,
          (l.set ((r.next_usize 0 l.length).2) (l.getLast hl)).dropLast) := by
    unfold swapRemove
    rw [hget, hlast]
  refine ⟨l.get ⟨(r.next_usize 0 l.length).2, hn⟩,
    (l.set ((r.next_usize 0 l.length).2) (l.getLast hl)).dropLast, ?_, ?_⟩
  · unfold Rng.extract_random
    rw [hsr]
  · exact swapRemove_spec l _ _ _ hsr

/-- C8 witness: extracting from `[10, 20, 30]` with the default generator. -/
theorem extract_random_spec_witness :
    (Rng.default.next_usize 0 ([10, 20, 30] : List ℕ).length).2
        < ([10, 20, 30] : List ℕ).length ∧
    ∃ v l2, Rng.default.extract_random ([10, 20, 30] : List ℕ)
        = some (v, (Rng.default.next_usize 0 ([10, 20, 30] : List ℕ).length).1, l2) ∧
      l2.length = ([10, 20, 30] : List ℕ).length - 1 ∧
      (v :: l2).Perm [10, 20, 30] :=
  extract_random_spec Rng.default [10, 20, 30] (by simp) rfl
    (by norm_num [Rng.default])

/-- C10 counterexample: the claim extends the absorbing-state property to
every seed that is a multiple of `m = 2147483647`, but for the seed
`177953 * 2147483647` the product `a * seed` overflows `u64`, so the very
first `next_f64` call moves the state to `2147483643 ≠ 0` and returns a
non-zero value. -/
theorem rng_multiple_of_m_not_absorbing :
    (177953 * 2147483647) % 2147483647 = 0 ∧
    ((Rng.new (177953 * 2147483647)).iterate 1).x = 2147483643 ∧
    (Rng.new (177953 * 2147483647)).outAt 0 = (2147483643 : ℚ) / 2147483647 ∧
    ¬ (((Rng.new (177953 * 2147483647)).iterate 1).x = 0 ∧
        (Rng.new (177953 * 2147483647)).outAt 0 = 0) := by
  refine ⟨by norm_num, ?_, ?_, ?_⟩
  · decide
  · show ((Rng.new (177953 * 2147483647)).next_f64).2 = _
    norm_num [Rng.new, Rng.default, Rng.next_f64, U64]
  · intro hcon
    have := hcon.1
    revert this
    decide

/-- C10 (amended): the zero state is absorbing.  For `Rng::new(0)` — and
more generally any seed below `2 ^ 64` that is a multiple of the default
modulus and small enough that `48271 * seed` does not overflow `u64` —
the state after every call is 0 and every `next_f64`/`next_f32` return
value is exactly 0. -/
theorem rng_zero_absorbing (s n : ℕ) (hs64 : s < U64)
    (hs : s % 2147483647 = 0) (hnov : 48271 * s < U64) :
    ((Rng.new s).iterate (n + 1)).x = 0 ∧ (Rng.new s).outAt n = 0 ∧
    (((Rng.new s).iterate n).next_f32).2 = (Rng.new s).outAt n := by
  have hstep : ∀ r : Rng, r.m = 2147483647 → r.a = 48271 → r.c = 0 →
      r.x % 2147483647 = 0 → 48271 * r.x < U64 →
      ((r.next_f64).1).x = 0 ∧ (r.next_f64).2 = 0 := by
    intro r hm ha hc hx hov
    have h1 : r.a * r.x % U64 = r.a * r.x := by
      rw [ha]; exact Nat.mod_eq_of_lt hov
    have h2 : r.a * r.x % U64 + r.c < U64 := by
      rw [h1, hc, ha, Nat.add_zero]; exact hov
    have hdvd : r.a * r.x % 2147483647 = 0 := by
      rw [ha]
      rw [Nat.mul_mod, hx, Nat.mul_zero, Nat.zero_mod]
    constructor
    · show (r.a * r.x % U64 + r.c) % U64 % r.m = 0
      rw [Nat.mod_eq_of_lt h2, h1, hc, hm, Nat.add_zero, hdvd]
    · show (((r.a * r.x % U64 + r.c) % U64 % r.m : ℕ) : ℚ) / (r.m : ℚ) = 0
      rw [Nat.mod_eq_of_lt h2, h1, hc, hm, Nat.add_zero, hdvd]
      norm_num
  have hinv : ∀ k : ℕ, ((Rng.new s).iterate k).m = 2147483647 ∧
      ((Rng.new s).iterate k).a = 48271 ∧ ((Rng.new s).iterate k).c = 0 ∧
      ((Rng.new s).iterate k).x % 2147483647 = 0 ∧
      48271 * ((Rng.new s).iterate k).x < U64 := by
    intro k
    induction k with
    | zero =>
      refine ⟨rfl, rfl, rfl, ?_, ?_⟩
      · show s % U64 % 2147483647 = 0
        rw [Nat.mod_eq_of_lt hs64, hs]
      · show 48271 * (s % U64) < U64
        rw [Nat.mod_eq_of_lt hs64]; exact hnov
    | succ k ih =>
      obtain ⟨hm, ha, hc, hx, hov⟩ := ih
      have := hstep _ hm ha hc hx hov
      refine ⟨hm, ha, hc, ?_, ?_⟩
      · show (((Rng.new s).iterate k).next_f64.1).x % 2147483647 = 0
        rw [this.1]
      · show 48271 * (((Rng.new s).iterate k).next_f64.1).x < U64
        rw [this.1]
        norm_num [U64]
  obtain ⟨hm, ha, hc, hx, hov⟩ := hinv n
  have h := hstep _ hm ha hc hx hov
  exact ⟨h.1, h.2, rfl⟩

/-- C10 witness: seed 0 satisfies the hypotheses; after e.g. 5 calls the
state is 0 and the 5th output is 0. -/
theorem rng_zero_absorbing_witness :
    ((Rng.new 0).iterate (4 + 1)).x = 0 ∧ (Rng.new 0).outAt 4 = 0 ∧
    (((Rng.new 0).iterate 4).next_f32).2 = (Rng.new 0).outAt 4 :=
  rng_zero_absorbing 0 4 (by norm_num [U64]) (by norm_num) (by norm_num [U64])

/-! ### Angle codec -/

/-- C2: for every interpretation of the float environment whose `pi` is
the real `π`, and every angle `a ∈ [0, 2π)`,
`from_u8_angle (to_u8_angle a)` differs from `a` by at most one
quantization step `2π / 255`. -/
theorem angle_roundtrip (fe : FloatEnv ℝ) (hpi : fe.pi = Real.pi) (a : ℝ)
    (h0 : 0 ≤ a) (h1 : a < 2 * Real.pi) :
    |from_u8_angle fe (to_u8_angle fe a) - a| ≤ 2 * Real.pi / 255 := by
  have hπ : (0:ℝ) < Real.pi := Real.pi_pos
  have h2π : (0:ℝ) < 2 * Real.pi := by linarith
  set t : ℝ := a / (2 * Real.pi) with ht
  have ht0 : 0 ≤ t := div_nonneg h0 h2π.le
  have ht1 : t < 1 := (div_lt_one h2π).mpr h1
  have hclamp : min (max (a / (2 * fe.pi)) 0) 1 = t := by
    rw [hpi, ← ht, max_eq_left ht0, min_eq_left ht1.le]
  have hR0 : (0:ℤ) ≤ round (t * 255) := by
    rw [round_eq]
    exact Int.le_floor.mpr (by push_cast; nlinarith)
  have hR255 : round (t * 255) ≤ 255 := by
    rw [round_eq]
    have hfl : (⌊t * 255 + 1/2⌋ : ℤ) < 256 := Int.floor_lt.mpr (by push_cast; nlinarith)
    omega
  have htu : to_u8_angle fe a = (round (t * 255)).toNat := by
    unfold to_u8_angle
    rw [hclamp]
    exact Nat.min_eq_left (Int.toNat_le.mpr hR255)
  have hfrom : from_u8_angle fe (to_u8_angle fe a)
      = ((round (t * 255) : ℤ) : ℝ) / 255 * 2 * Real.pi := by
    unfold from_u8_angle
    rw [htu, hpi]
    have hn0 : (0:ℝ) ≤ ((round (t * 255)).toNat : ℝ) / 255 := by positivity
    have hn1 : ((round (t * 255)).toNat : ℝ) / 255 ≤ 1 := by
      rw [div_le_one (by norm_num)]
      have hle : ((round (t * 255)).toNat : ℕ) ≤ 255 := Int.toNat_le.mpr hR255
      exact_mod_cast hle
    rw [max_eq_left hn0, min_eq_left hn1]
    have hcast : (((round (t * 255)).toNat : ℕ) : ℝ) = ((round (t * 255) : ℤ) : ℝ) := by
      rw [← Int.cast_natCast, Int.toNat_of_nonneg hR0]
    rw [hcast]
  have ha : a = t * (2 * Real.pi) := by
    field_simp [ht]
  have key : from_u8_angle fe (to_u8_angle fe a) - a
      = (((round (t * 255) : ℤ) : ℝ) - t * 255) * (2 * Real.pi / 255) := by
    rw [hfrom]
    nth_rewrite 1 [ha]
    ring
  rw [key, abs_mul, abs_of_pos (by positivity : (0:ℝ) < 2 * Real.pi / 255)]
  have habs : |((round (t * 255) : ℤ) : ℝ) - t * 255| ≤ 1 / 2 := by
    have hr := abs_sub_round (t * 255)
    rw [abs_sub_comm] at hr
    exact hr
  calc |((round (t * 255) : ℤ) : ℝ) - t * 255| * (2 * Real.pi / 255)
      ≤ (1 / 2) * (2 * Real.pi / 255) :=
        mul_le_mul_of_nonneg_right habs (by positivity)
    _ ≤ 2 * Real.pi / 255 := by nlinarith

/-- C2 witness: the round-trip bound applied at the concrete angle 0
under the idealised real interpretation. -/
theorem angle_roundtrip_witness :
    |from_u8_angle realFloatEnv (to_u8_angle realFloatEnv 0) - 0| ≤ 2 * Real.pi / 255 :=
  angle_roundtrip realFloatEnv rfl 0 le_rfl (by positivity)

/-! ### Touch interpreter -/

/-- C3 (amended): whenever a tap-fire is pending, `drain` returns `Some`
record with the fire bit set and the aim byte computed toward the tap's
world position, and clears the pending tap; if a joystick finger is also
active in the same tick, the drag movement is reported in the same
record (the move bit is set exactly when the joystick lookup succeeds). -/
theorem drain_tap_fire {α : Type} [LinearOrderedField α] [FloorRing α]
    (fe : FloatEnv α) (tm : TouchMovement α) (player_pos : Vec2 α)
    (default_angle : ℕ) (view_to_world : Vec2 α → Vec2 α) (sp : Vec2 α)
    (hfire : tm.fire_touch = some sp) :
    ∃ rec : PlayerInput,
      (tm.drain fe player_pos default_angle view_to_world).1 = some rec ∧
      rec.fire = true ∧
      rec.angle = to_u8_angle fe (vec_to_angle fe (view_to_world sp - player_pos)) ∧
      (tm.drain fe player_pos default_angle view_to_world).2.fire_touch = none ∧
      (rec.moving = true
        ↔ (tm.stick_id.bind (fun sid => findFinger tm.fingers sid)).isSome = true) := by
  rcases hstick : tm.stick_id.bind (fun sid => findFinger tm.fingers sid) with _ | f
  · refine ⟨⟨0, 2,
      to_u8_angle fe (vec_to_angle fe (view_to_world sp - player_pos))⟩, ?_, ?_, rfl, ?_, ?_⟩
    · simp [TouchMovement.drain, hfire, hstick, FIRE, MOVE]
    · simp [PlayerInput.fire, FIRE]
    · simp [TouchMovement.drain, hfire, hstick, FIRE, MOVE]
    · simp [PlayerInput.moving, MOVE, hstick]
  · refine ⟨⟨to_u8_angle fe (vec_to_angle fe (f.delta * (⟨1, -1⟩ : Vec2 α))), 3,
      to_u8_angle fe (vec_to_angle fe (view_to_world sp - player_pos))⟩, ?_, ?_, rfl, ?_, ?_⟩
    · simp [TouchMovement.drain, hfire, hstick, FIRE, MOVE]
    · simp [PlayerInput.fire, FIRE]
    · simp [TouchMovement.drain, hfire, hstick, FIRE, MOVE]
    · simp [PlayerInput.moving, MOVE, hstick]

/-- C3 counterexample: with a pending tap-fire and an active joystick
finger from another touch, `drain` reports the movement in the same
record — the move bit is set, contrary to the claim that the returned
record never also reports joystick movement. -/
theorem drain_tap_fire_counterexample :
    ((TouchMovement.drain qEnv
        ⟨[(1, ⟨⟨0, 0⟩, ⟨30, 0⟩, false⟩)], some 1, some ⟨5, 5⟩⟩
        ⟨0, 0⟩ 0 (fun v => v)).1.map PlayerInput.moving) = some true ∧
    ((⟨[(1, ⟨⟨0, 0⟩, ⟨30, 0⟩, false⟩)], some 1, some ⟨5, 5⟩⟩ :
        TouchMovement ℚ).fire_touch).isSome = true := by
  decide

/-- C3 witness: the amended statement evaluated at a concrete touch
state over `ℚ` with a pending tap at `(5, 5)` and an active joystick
finger. -/
theorem drain_tap_fire_witness :
    ∃ rec : PlayerInput,
      ((⟨[(1, ⟨⟨0, 0⟩, ⟨30, 0⟩, false⟩)], some 1, some ⟨5, 5⟩⟩ :
          TouchMovement ℚ).drain qEnv ⟨0, 0⟩ 0 (fun v => v)).1 = some rec ∧
      rec.fire = true ∧
      rec.angle = to_u8_angle qEnv (vec_to_angle qEnv ((fun v => v) (⟨5, 5⟩ : Vec2 ℚ) - ⟨0, 0⟩)) ∧
      ((⟨[(1, ⟨⟨0, 0⟩, ⟨30, 0⟩, false⟩)], some 1, some ⟨5, 5⟩⟩ :
          TouchMovement ℚ).drain qEnv ⟨0, 0⟩ 0 (fun v => v)).2.fire_touch = none ∧
      (rec.moving = true
        ↔ ((⟨[(1, ⟨⟨0, 0⟩, ⟨30, 0⟩, false⟩)], some 1, some ⟨5, 5⟩⟩ :
            TouchMovement ℚ).stick_id.bind
            (fun sid => findFinger [(1, ⟨⟨0, 0⟩, ⟨30, 0⟩, false⟩)] sid)).isSome = true) :=
  drain_tap_fire qEnv _ ⟨0, 0⟩ 0 (fun v => v) ⟨5, 5⟩ rfl

/-! ### Input capture -/

/-- C4 (amended): on a tick with no keyboard key pressed, no mouse button
pressed and no touch result, the recorded input has `btn = 0`, a `dir`
byte that is the encoding of the zero movement vector (not 0 in
general), and an `angle` byte equal to the cached aim angle, refreshed
from the cursor when a cursor position is available — so the record is
all-zero only when the cache and the encodings happen to be zero. -/
theorem input_no_press {α : Type} [LinearOrderedField α] [FloorRing α]
    (fe : FloatEnv α) (w : WindowM α) (pov : Bool) (cached : ℕ) :
    inputSystem fe (some w) ⟨false, false, false, false⟩ false pov none true cached
      = some (⟨to_u8_angle fe (vec_to_angle fe ⟨0, 0⟩), 0, aimAngle fe w cached⟩,
          aimAngle fe w cached) := by
  rcases w with ⟨focused, width, height, cursor⟩
  cases focused <;>
    simp [inputSystem, keyDir, FIRE, MOVE]

/-- C4 counterexample: with the aim-angle cache holding 7, no cursor, no
keys, no mouse and no touch, the recorded input carries angle byte 7 —
not the all-zero record the claim requires. -/
theorem input_no_press_counterexample :
    ((inputSystem qEnv (some ⟨true, 100, 100, none⟩) ⟨false, false, false, false⟩
        false false none true 7).map (fun out => out.1.angle)) = some 7 ∧
    (7 : ℕ) ≠ 0 := by
  exact ⟨rfl, by decide⟩

/-! ### Degenerate input environments -/

/-- C9 (amended): with no window available the input system panics
(`q_window.single()`), modelled by `none` — it does not produce a
record; the degenerate case that does yield the all-zero default record
without failing is a missing player entity for the local handle.  (The
system in `input.rs` queries no camera at all.) -/
theorem input_degenerate {α : Type} [LinearOrderedField α] [FloorRing α]
    (fe : FloatEnv α) (w : WindowM α) (keys : KeysPressed) (ml pov : Bool)
    (tr : Option PlayerInput) (pf : Bool) (cached : ℕ) :
    inputSystem fe none keys ml pov tr pf cached = none ∧
    inputSystem fe (some w) keys ml pov tr false cached = some (⟨0, 0, 0⟩, cached) :=
  ⟨rfl, rfl⟩

/-- C9 counterexample: at a concrete degenerate input with no window the
system yields `none` (the `q_window.single()` panic), not the all-zero
default record the claim requires. -/
theorem input_no_window_counterexample :
    inputSystem qEnv none ⟨false, false, false, false⟩ false false none true 0 = none ∧
    (none : Option (PlayerInput × ℕ)) ≠ some (⟨0, 0, 0⟩, 0) := by
  decide

/-! ### Session orchestration -/

/-- C6 (amended): when the drained session events contain a
`Disconnected` event, the orchestrator tears the session down — the game
transitions to the lobby state, whose entry removes the session and
socket resources, despawns all players and bullets and reseeds the RNG —
and no reconnection is attempted.  `DesyncDetected` events, however, are
only logged: they trigger no transition and no teardown (see the
counterexample). -/
theorem disconnect_teardown (st : AppState) (s : SessionRes)
    (hs : st.session = some s)
    (hd : s.events.any GgrsEvent.isDisconnected = true) :
    (handle_session_events st).game_state = GameStateM.lobby ∧
    (handle_session_events st).session = none ∧
    (handle_session_events st).socket = false ∧
    (handle_session_events st).players = [] ∧
    (handle_session_events st).bullets = [] ∧
    (handle_session_events st).rng = Rng.new 8008135 := by
  simp [handle_session_events, process_ggrs_events, reset_game, hs, hd]

/-- C6 witness: a combat-state app with a pending `Disconnected` event is
torn down to the lobby. -/
theorem disconnect_teardown_witness :
    (handle_session_events
        ⟨GameStateM.combat, some ⟨[GgrsEvent.disconnected 1]⟩, true,
          [10, 11], [20], Rng.default⟩).game_state = GameStateM.lobby ∧
    (handle_session_events
        ⟨GameStateM.combat, some ⟨[GgrsEvent.disconnected 1]⟩, true,
          [10, 11], [20], Rng.default⟩).session = none ∧
    (handle_session_events
        ⟨GameStateM.combat, some ⟨[GgrsEvent.disconnected 1]⟩, true,
          [10, 11], [20], Rng.default⟩).socket = false ∧
    (handle_session_events
        ⟨GameStateM.combat, some ⟨[GgrsEvent.disconnected 1]⟩, true,
          [10, 11], [20], Rng.default⟩).players = [] ∧
    (handle_session_events
        ⟨GameStateM.combat, some ⟨[GgrsEvent.disconnected 1]⟩, true,
          [10, 11], [20], Rng.default⟩).bullets = [] ∧
    (handle_session_events
        ⟨GameStateM.combat, some ⟨[GgrsEvent.disconnected 1]⟩, true,
          [10, 11], [20], Rng.default⟩).rng = Rng.new 8008135 :=
  disconnect_teardown _ ⟨[GgrsEvent.disconnected 1]⟩ rfl rfl

/-! ### Combat chain -/

/-- C1: determinism of the combat chain.  For every frame count, every
ordered per-frame/per-slot input assignment and every initial
rollback-tracked state (which contains the RNG), two independent runs of
the chained systems produce identical rollback-tracked state: the
result is the same for every interpretation `env` of the ambient
non-tracked resources the systems receive (asset server, audio), and
for each fixed interpretation `fe` of the platform float operations. -/
theorem combat_chain_deterministic {α : Type} [LinearOrderedField α] [FloorRing α]
    {ε₁ ε₂ : Type} (fe : FloatEnv α) (env₁ : ε₁) (env₂ : ε₂)
    (inputs : List (ℕ → PlayerInput)) (s : CombatState α) :
    runCombat fe env₁ inputs s = runCombat fe env₂ inputs s := by
  induction inputs generalizing s with
  | nil => rfl
  | cons i rest ih =>
    show runCombat fe env₁ rest (stepFrame fe env₁ i s)
        = runCombat fe env₂ rest (stepFrame fe env₂ i s)
    have hstep : stepFrame fe env₁ i s = stepFrame fe env₂ i s := rfl
    rw [hstep]
    exact ih _

/-- C5: `player_terrain_collision` is order-dependent.  A player square
spanning `[-80, 80]^2` overlaps wall `A` (spanning `[20, 600] × [-600,
600]`, minimal push `x -= 60`) and wall `B` (spanning `[30, 160] × [78,
240]`, minimal push `y -= 2`).  Resolving `A` first moves the player out
of `B`'s range, so the pass ends at `(-60, 0)`; resolving `B` first ends
at `(-60, -2)`.  The rigid-body lists are permutations of each other,
yet the final translations differ. -/
theorem player_terrain_collision_order_dependent :
    ((player_terrain_collision qEnv
        ⟨[⟨0, TransformB.fromXYZ 0 0 10, ⟨0, 0⟩, ⟨false, false, false, false⟩,
            ⟨Hitbox.rect ⟨0, 0⟩ ⟨0, 0⟩, Hitbox.rect ⟨0, 0⟩ ⟨0, 0⟩,
              Hitbox.rect ⟨0, 0⟩ ⟨0, 0⟩, Hitbox.rect ⟨0, 0⟩ ⟨0, 0⟩⟩,
            Hitbox.rect ⟨0, 0⟩ ⟨80, 80⟩, ⟨true, 999⟩, Facing.down, 1, 0, 0, none⟩],
          [], [],
          [(Hitbox.rect ⟨0, 0⟩ ⟨290, 600⟩, TransformB.fromXYZ 310 0 0),
           (Hitbox.rect ⟨0, 0⟩ ⟨65, 81⟩, TransformB.fromXYZ 95 159 0)],
          Rng.default⟩).players.map (fun p => p.transform.translation))
      = [⟨-60, 0, 10⟩] ∧
    ((player_terrain_collision qEnv
        ⟨[⟨0, TransformB.fromXYZ 0 0 10, ⟨0, 0⟩, ⟨false, false, false, false⟩,
            ⟨Hitbox.rect ⟨0, 0⟩ ⟨0, 0⟩, Hitbox.rect ⟨0, 0⟩ ⟨0, 0⟩,
              Hitbox.rect ⟨0, 0⟩ ⟨0, 0⟩, Hitbox.rect ⟨0, 0⟩ ⟨0, 0⟩⟩,
            Hitbox.rect ⟨0, 0⟩ ⟨80, 80⟩, ⟨true, 999⟩, Facing.down, 1, 0, 0, none⟩],
          [], [],
          [(Hitbox.rect ⟨0, 0⟩ ⟨65, 81⟩, TransformB.fromXYZ 95 159 0),
           (Hitbox.rect ⟨0, 0⟩ ⟨290, 600⟩, TransformB.fromXYZ 310 0 0)],
          Rng.default⟩).players.map (fun p => p.transform.translation))
      = [⟨-60, -2, 10⟩] ∧
    ([(Hitbox.rect ⟨0, 0⟩ ⟨290, 600⟩, TransformB.fromXYZ 310 0 0),
      (Hitbox.rect ⟨0, 0⟩ ⟨65, 81⟩, TransformB.fromXYZ 95 159 0)] :
        List (Hitbox ℚ × TransformB ℚ)).Perm
      [(Hitbox.rect ⟨0, 0⟩ ⟨65, 81⟩, TransformB.fromXYZ 95 159 0),
       (Hitbox.rect ⟨0, 0⟩ ⟨290, 600⟩, TransformB.fromXYZ 310 0 0)] ∧
    (⟨-60, 0, 10⟩ : Vec3 ℚ) ≠ ⟨-60, -2, 10⟩ := by
  refine ⟨?_, ?_, ?_, ?_⟩
  · with_unfolding_all decide
  · with_unfolding_all decide
  · exact List.Perm.swap _ _ _
  · decide

/-- C6 counterexample: a `DesyncDetected` event does not tear the
session down — the session resource survives (with its queue drained)
and the game stays in combat, contrary to the claim that a desync
detection removes the session and returns to the lobby. -/
theorem desync_not_torn_down :
    ((handle_session_events
        ⟨GameStateM.combat, some ⟨[GgrsEvent.desyncDetected 100 1 2 0]⟩, true,
          [10, 11], [20], Rng.default⟩).session).isSome = true ∧
    (handle_session_events
        ⟨GameStateM.combat, some ⟨[GgrsEvent.desyncDetected 100 1 2 0]⟩, true,
          [10, 11], [20], Rng.default⟩).game_state = GameStateM.combat := by
  decide

end P2pg
